import Mathlib

/-!
Verification development for the langgraph-learning-demo repository.

Shallow embedding of the two core subsystems:
* the conversation state transition (`chatbot_node` in
  `src/examples/basic_chatbot.py`), with the language-model client
  modelled as an injected collaborator `List Message → Except String Message`
  (success carries the returned message, failure carries the exception text);
* the progress tracker and learning-module bookkeeping
  (`ProgressTracker`, `LearningModule.get_progress_summary` in
  `src/core/base.py`), with Python dicts embedded as association lists
  with in-place key update, `datetime.now()` embedded as an explicit
  `now : Nat` parameter, and float scores/percentages embedded as exact
  rationals.
-/

namespace LangGraphDemo

/-- Message roles used by the chatbot: `HumanMessage` and `AIMessage`
from langchain_core. -/
inductive Role where
  | user
  | assistant
  deriving DecidableEq, Repr

/-- A chat message: role plus text content. -/
structure Message where
  role : Role
  content : String
  deriving DecidableEq, Repr

/-- `ChatState` from `src/examples/basic_chatbot.py`:
`messages`, `user_input`, `response`. -/
structure ChatState where
  messages : List Message
  user_input : String
  response : String
  deriving DecidableEq, Repr

/-- The reply-producing collaborator (the `llm.invoke` call): given the
message history, either returns a reply message or fails with an
exception described by a string. -/
abbrev Collaborator : Type := List Message → Except String Message

/-- `chatbot_node` from `src/examples/basic_chatbot.py`, lines 39-81.
Python truthiness of `state.get("user_input")` is non-emptiness of the
string; the `try/except` around `llm.invoke` is the `match` on the
collaborator's `Except` result. -/
def chatbot_node (llm : Collaborator) (state : ChatState) : ChatState :=
  -- messages = state.get("messages", []); if user_input: append HumanMessage
  let messages :=
    if state.user_input = "" then state.messages
    else state.messages ++ [⟨Role.user, state.user_input⟩]
  match llm messages with
  | Except.ok ai_response =>
      { messages := messages ++ [ai_response]
        response := ai_response.content
        user_input := "" }
  | Except.error e =>
      let error_message := "Sorry, I encountered an error: " ++ e
      { messages := messages ++ [⟨Role.assistant, error_message⟩]
        response := error_message
        user_input := "" }

/-- Association-list update with Python-dict semantics: overwrite in place
when the key exists, append at the end when it is new. -/
def dictSet {α : Type} (l : List (String × α)) (k : String) (v : α) :
    List (String × α) :=
  match l with
  | [] => [(k, v)]
  | (k0, v0) :: rest =>
      if k0 = k then (k0, v) :: rest else (k0, v0) :: dictSet rest k v

/-- Association-list lookup (Python `d[k]` / `k in d`). -/
def dictGet {α : Type} (l : List (String × α)) (k : String) : Option α :=
  match l with
  | [] => none
  | (k0, v0) :: rest => if k0 = k then some v0 else dictGet rest k

/-- The per-student record kept in `ProgressTracker.student_progress`
(`src/core/base.py`, lines 213-219): completed module ids in insertion
order, a module-id → score map, and two timestamps.  Timestamps are
abstract instants (`datetime.now()` becomes an explicit parameter);
scores are exact rationals in place of Python floats. -/
structure StudentRecord where
  completed_modules : List String
  module_scores : List (String × ℚ)
  start_date : Nat
  last_activity : Nat
  deriving DecidableEq, Repr

/-- `ProgressTracker` from `src/core/base.py`: an in-memory registry
mapping student id to a progress record. -/
structure ProgressTracker where
  student_progress : List (String × StudentRecord)
  deriving DecidableEq, Repr

/-- `ProgressTracker.__init__`: empty registry. -/
def ProgressTracker.init : ProgressTracker := ⟨[]⟩

/-- `ProgressTracker.record_module_completion` (`src/core/base.py`,
lines 211-225), with `datetime.now()` passed in as `now`. -/
def ProgressTracker.record_module_completion (t : ProgressTracker)
    (student_id module_id : String) (score : ℚ) (now : Nat) :
    ProgressTracker :=
  let rec0 : StudentRecord :=
    match dictGet t.student_progress student_id with
    | none =>
        { completed_modules := []
          module_scores := []
          start_date := now
          last_activity := now }
    | some r => r
  let rec1 : StudentRecord :=
    if module_id ∈ rec0.completed_modules then rec0
    else { rec0 with completed_modules := rec0.completed_modules ++ [module_id] }
  let rec2 : StudentRecord :=
    { rec1 with
        module_scores := dictSet rec1.module_scores module_id score
        last_activity := now }
  ⟨dictSet t.student_progress student_id rec2⟩

/-- The snapshot returned by `ProgressTracker.get_student_progress`:
the dict literal of `src/core/base.py`, lines 230-237 and 243-250. -/
structure ProgressReport where
  student_id : String
  completed_modules : List String
  module_scores : List (String × ℚ)
  overall_progress : ℚ
  start_date : Option Nat
  last_activity : Option Nat
  deriving DecidableEq, Repr

/-- `ProgressTracker.get_student_progress` (`src/core/base.py`,
lines 227-250).  `total_modules = 9  # Based on our learning system
design`. -/
def ProgressTracker.get_student_progress (t : ProgressTracker)
    (student_id : String) : ProgressReport :=
  match dictGet t.student_progress student_id with
  | none =>
      { student_id := student_id
        completed_modules := []
        module_scores := []
        overall_progress := 0
        start_date := none
        last_activity := none }
  | some progress =>
      let total_modules : ℚ := 9
      let completed_count : ℚ := progress.completed_modules.length
      { student_id := student_id
        completed_modules := progress.completed_modules
        module_scores := progress.module_scores
        overall_progress := completed_count / total_modules * 100
        start_date := some progress.start_date
        last_activity := some progress.last_activity }

/-- Python's string comparison: lexicographic on the sequences of code
points.  Stated on the underlying character lists, so it is
kernel-computable. -/
def strLe (a b : String) : Prop := a.data ≤ b.data

instance : DecidableRel strLe :=
  fun a b => inferInstanceAs (Decidable (a.data ≤ b.data))

instance : IsTotal String strLe := ⟨fun a b => le_total a.data b.data⟩

instance : IsTrans String strLe := ⟨fun _ _ _ => le_trans⟩

/-- `strLe` coincides with the lexicographic order on strings. -/
theorem strLe_iff (a b : String) : strLe a b ↔ a ≤ b := by
  rw [String.le_iff_toList_le]
  exact Iff.rfl

/-- `ProgressTracker.recommend_next_steps` (`src/core/base.py`,
lines 252-263).  Python's stable `list.sort()` on strings is embedded as
insertion sort under the code-point lexicographic order; on a list of
strings the two agree elementwise, equal strings being
indistinguishable. -/
def ProgressTracker.recommend_next_steps (t : ProgressTracker)
    (student_id : String) (available_modules : List String) : List String :=
  let progress := t.get_student_progress student_id
  let completed := progress.completed_modules
  let recommendations :=
    available_modules.filter (fun m => !(completed.contains m))
  (recommendations.insertionSort strLe).take 3

/-- `DifficultyLevel` enum from `src/core/base.py`. -/
inductive DifficultyLevel where
  | beginner
  | intermediate
  | advanced
  | expert
  deriving DecidableEq, Repr

/-- `.value` of the `DifficultyLevel` enum members. -/
def DifficultyLevel.value : DifficultyLevel → String
  | .beginner => "beginner"
  | .intermediate => "intermediate"
  | .advanced => "advanced"
  | .expert => "expert"

/-- `ExerciseType` enum from `src/core/base.py`. -/
inductive ExerciseType where
  | coding
  | quiz
  | project
  | reflection
  deriving DecidableEq, Repr

/-- `Exercise` dataclass from `src/core/base.py` (after `__post_init__`,
so the two optional lists are plain lists). -/
structure Exercise where
  exercise_id : String
  title : String
  description : String
  exercise_type : ExerciseType
  difficulty : DifficultyLevel
  estimated_time : Nat
  instructions : String
  starter_code : Option String := none
  solution_code : Option String := none
  validation_criteria : List String := []
  hints : List String := []
  deriving DecidableEq, Repr

/-- The data carried by the `LearningModule` base class
(`src/core/base.py`, lines 118-135); the abstract methods are
module-specific and out of scope. -/
structure LearningModule where
  module_id : String
  title : String
  description : String
  prerequisites : List String
  difficulty : DifficultyLevel
  estimated_duration : Nat
  learning_objectives : List String
  exercises : List Exercise
  deriving DecidableEq, Repr

/-- `LearningModule.validate_prerequisites` (`src/core/base.py`,
lines 157-159). -/
def LearningModule.validate_prerequisites (m : LearningModule)
    (completed_modules : List String) : Bool :=
  m.prerequisites.all (fun prereq => completed_modules.contains prereq)

/-- The dict returned by `LearningModule.get_progress_summary`
(`src/core/base.py`, lines 174-183). -/
structure ModuleProgressSummary where
  module_id : String
  title : String
  total_exercises : Nat
  completed_exercises : Nat
  progress_percentage : ℚ
  is_complete : Bool
  difficulty : String
  estimated_duration : Nat
  deriving DecidableEq, Repr

/-- `LearningModule.get_progress_summary` (`src/core/base.py`,
lines 169-183). -/
def LearningModule.get_progress_summary (m : LearningModule)
    (completed_exercises : List String) : ModuleProgressSummary :=
  let total_exercises := m.exercises.length
  let completed_count :=
    (m.exercises.filter
      (fun ex => completed_exercises.contains ex.exercise_id)).length
  { module_id := m.module_id
    title := m.title
    total_exercises := total_exercises
    completed_exercises := completed_count
    progress_percentage :=
      if total_exercises > 0 then
        (completed_count : ℚ) / (total_exercises : ℚ) * 100
      else 0
    is_complete := completed_count == total_exercises
    difficulty := m.difficulty.value
    estimated_duration := m.estimated_duration }

/-! ### Theorems about the conversation transition -/

/-- C1: for every state with non-empty pending input, when the
collaborator succeeds with an assistant reply, the transition returns a
state whose history is the old history with the user-role message
carrying the pending text appended followed by the reply, whose
response equals the reply's text, and whose pending input is empty. -/
theorem chatbot_success_transition (llm : Collaborator) (s : ChatState)
    (reply : Message)
    (hne : s.user_input ≠ "")
    (hok : llm (s.messages ++ [⟨Role.user, s.user_input⟩]) = Except.ok reply)
    (hrole : reply.role = Role.assistant) :
    chatbot_node llm s =
      { messages := s.messages ++ [⟨Role.user, s.user_input⟩, reply]
        user_input := ""
        response := reply.content } := by
  unfold chatbot_node
  simp [if_neg hne, hok, List.append_assoc]

/-- Witness for C1: the spec's end-to-end example — from
`{history: [], pending: "Hi", response: ""}` with a collaborator that
always replies "Hello!", the result is
`{history: [User "Hi", Assistant "Hello!"], pending: "", response: "Hello!"}`. -/
theorem chatbot_success_transition_witness :
    ("Hi" : String) ≠ "" ∧
    chatbot_node (fun _ => Except.ok ⟨Role.assistant, "Hello!"⟩)
        ⟨[], "Hi", ""⟩ =
      ⟨[⟨Role.user, "Hi"⟩, ⟨Role.assistant, "Hello!"⟩], "", "Hello!"⟩ :=
  ⟨by decide,
    by
      have h := chatbot_success_transition
        (fun _ => Except.ok ⟨Role.assistant, "Hello!"⟩)
        ⟨[], "Hi", ""⟩ ⟨Role.assistant, "Hello!"⟩ (by decide) rfl rfl
      simpa using h⟩

/-- C2: for every state with non-empty pending input, when the
collaborator fails with description `e`, the transition still returns
normally (it is a total function — the failure is absorbed, never
propagated) and the result appends the user message and a synthetic
assistant message whose text is the fixed-format error notice embedding
`e`; the response field carries the same notice, so it contains the
failure description, and pending input is cleared. -/
theorem chatbot_failure_absorbed (llm : Collaborator) (s : ChatState)
    (e : String)
    (hne : s.user_input ≠ "")
    (herr : llm (s.messages ++ [⟨Role.user, s.user_input⟩]) =
      Except.error e) :
    chatbot_node llm s =
      { messages := s.messages ++ [⟨Role.user, s.user_input⟩,
          ⟨Role.assistant, "Sorry, I encountered an error: " ++ e⟩]
        user_input := ""
        response := "Sorry, I encountered an error: " ++ e } ∧
    ∃ p, (chatbot_node llm s).response = p ++ e := by
  constructor
  · unfold chatbot_node
    simp [if_neg hne, herr, List.append_assoc]
  · refine ⟨"Sorry, I encountered an error: ", ?_⟩
    unfold chatbot_node
    simp only [if_neg hne, herr]

/-- Witness for C2: concrete failing collaborator on the example state. -/
theorem chatbot_failure_absorbed_witness :
    ("Hi" : String) ≠ "" ∧
    (chatbot_node (fun _ => Except.error "quota") ⟨[], "Hi", ""⟩ =
      ⟨[⟨Role.user, "Hi"⟩,
        ⟨Role.assistant, "Sorry, I encountered an error: quota"⟩], "",
        "Sorry, I encountered an error: quota"⟩ ∧
      ∃ p, (chatbot_node (fun _ => Except.error "quota")
        ⟨[], "Hi", ""⟩).response = p ++ "quota") :=
  ⟨by decide,
    by
      have h := chatbot_failure_absorbed
        (fun _ => Except.error "quota") ⟨[], "Hi", ""⟩ "quota"
        (by decide) rfl
      simpa using h⟩

/-- C3: for every state whose pending input is the empty string, one
transition with a succeeding collaborator appends exactly one message
(the collaborator's reply) to the history — no user-role message is
appended. -/
theorem chatbot_empty_input_one_message (llm : Collaborator)
    (s : ChatState) (reply : Message)
    (hemp : s.user_input = "")
    (hok : llm s.messages = Except.ok reply) :
    chatbot_node llm s =
      { messages := s.messages ++ [reply]
        user_input := ""
        response := reply.content } := by
  unfold chatbot_node
  simp only [if_pos hemp, hok]

/-- Witness for C3: empty pending input on a non-empty history; only
the reply is appended. -/
theorem chatbot_empty_input_one_message_witness :
    ("" : String) = "" ∧
    chatbot_node (fun _ => Except.ok ⟨Role.assistant, "Hello!"⟩)
        ⟨[⟨Role.user, "Hi"⟩], "", ""⟩ =
      ⟨[⟨Role.user, "Hi"⟩, ⟨Role.assistant, "Hello!"⟩], "", "Hello!"⟩ :=
  ⟨rfl,
    by
      have h := chatbot_empty_input_one_message
        (fun _ => Except.ok ⟨Role.assistant, "Hello!"⟩)
        ⟨[⟨Role.user, "Hi"⟩], "", ""⟩ ⟨Role.assistant, "Hello!"⟩ rfl rfl
      simpa using h⟩

/-- C8: the transition is deterministic apart from the injected
collaborator — two runs on equal input states with collaborators of the
same behavior (same result on every history) produce equal output
states. -/
theorem chatbot_node_deterministic (c1 c2 : Collaborator)
    (s1 s2 : ChatState)
    (hs : s1 = s2)
    (hc : ∀ msgs, c1 msgs = c2 msgs) :
    chatbot_node c1 s1 = chatbot_node c2 s2 := by
  subst hs
  have hfun : c1 = c2 := funext hc
  rw [hfun]

/-- Witness for C8: two syntactically different but behaviorally equal
collaborators on the example state give the same output. -/
theorem chatbot_node_deterministic_witness :
    (⟨[], "Hi", ""⟩ : ChatState) = ⟨[], "Hi", ""⟩ ∧
    (∀ msgs : List Message,
      (fun _ => Except.ok (⟨Role.assistant, "Hello!"⟩ : Message)) msgs =
      (fun msgs2 =>
        if msgs2.length = msgs2.length then
          Except.ok (⟨Role.assistant, "Hello!"⟩ : Message)
        else Except.error "unreachable") msgs) ∧
    chatbot_node (fun _ => Except.ok ⟨Role.assistant, "Hello!"⟩)
        ⟨[], "Hi", ""⟩ =
      chatbot_node
        (fun msgs2 =>
          if msgs2.length = msgs2.length then
            Except.ok (⟨Role.assistant, "Hello!"⟩ : Message)
          else Except.error "unreachable")
        ⟨[], "Hi", ""⟩ :=
  ⟨rfl, fun msgs => by simp,
    chatbot_node_deterministic _ _ _ _ rfl (fun msgs => by simp)⟩

/-! ### Helper lemmas for the association-list dictionaries -/

theorem dictGet_dictSet_self {α : Type} (l : List (String × α))
    (k : String) (v : α) : dictGet (dictSet l k v) k = some v := by
  induction l with
  | nil => simp [dictSet, dictGet]
  | cons p rest ih =>
      obtain ⟨k0, v0⟩ := p
      by_cases h : k0 = k <;> simp [dictSet, dictGet, h, ih]

theorem dictGet_dictSet_other {α : Type} (l : List (String × α))
    (k k2 : String) (v : α) (hne : k2 ≠ k) :
    dictGet (dictSet l k v) k2 = dictGet l k2 := by
  induction l with
  | nil => simp [dictSet, dictGet, Ne.symm hne]
  | cons p rest ih =>
      obtain ⟨k0, v0⟩ := p
      by_cases h0 : k0 = k
      · subst h0
        simp [dictSet, dictGet, Ne.symm hne]
      · simp [dictSet, dictGet, h0, ih]

theorem mem_dictSet {α : Type} {l : List (String × α)} {k : String}
    {v : α} {p : String × α} (h : p ∈ dictSet l k v) :
    p = (k, v) ∨ p ∈ l := by
  induction l with
  | nil => simpa [dictSet] using h
  | cons q rest ih =>
      obtain ⟨k0, v0⟩ := q
      simp only [dictSet] at h
      split at h
      next heq =>
        subst heq
        rcases List.mem_cons.mp h with h1 | h1
        · exact Or.inl h1
        · exact Or.inr (List.mem_cons_of_mem _ h1)
      next heq =>
        rcases List.mem_cons.mp h with h1 | h1
        · exact Or.inr (by simp [h1])
        · rcases ih h1 with h2 | h2
          · exact Or.inl h2
          · exact Or.inr (List.mem_cons_of_mem _ h2)

theorem dictGet_mem {α : Type} {l : List (String × α)} {k : String}
    {v : α} (h : dictGet l k = some v) : (k, v) ∈ l := by
  induction l with
  | nil => simp [dictGet] at h
  | cons q rest ih =>
      obtain ⟨k0, v0⟩ := q
      simp only [dictGet] at h
      split at h
      next heq =>
        subst heq
        obtain rfl := Option.some.inj h
        exact List.mem_cons_self _ _
      next heq =>
        exact List.mem_cons_of_mem _ (ih h)

theorem dictSet_map_fst {α : Type} (l : List (String × α)) (k : String)
    (v : α) :
    (dictSet l k v).map Prod.fst =
      if k ∈ l.map Prod.fst then l.map Prod.fst
      else l.map Prod.fst ++ [k] := by
  induction l with
  | nil => simp [dictSet]
  | cons p rest ih =>
      obtain ⟨k0, v0⟩ := p
      by_cases h : k0 = k
      · subst h
        simp [dictSet]
      · have hne : ¬k = k0 := fun hk => h hk.symm
        by_cases hk : k ∈ rest.map Prod.fst <;>
          simp [dictSet, h, ih, hne, hk]

/-- The completed-modules list stored for a student (empty when the
student is unknown). -/
def completedOf (t : ProgressTracker) (sid : String) : List String :=
  match dictGet t.student_progress sid with
  | none => []
  | some r => r.completed_modules

/-- The stored score for a student and module, when any. -/
def scoreOf (t : ProgressTracker) (sid mid : String) : Option ℚ :=
  match dictGet t.student_progress sid with
  | none => none
  | some r => dictGet r.module_scores mid

/-! ### Theorems about the progress tracker -/

/-- C7: for every tracker and every student id with no record,
`get_student_progress` returns the zero-value snapshot — empty
completed list, empty score map, overall progress 0, null timestamps —
and, being a total function, never raises. -/
theorem get_student_progress_unknown (t : ProgressTracker)
    (sid : String)
    (h : dictGet t.student_progress sid = none) :
    t.get_student_progress sid =
      { student_id := sid
        completed_modules := []
        module_scores := []
        overall_progress := 0
        start_date := none
        last_activity := none } := by
  unfold ProgressTracker.get_student_progress
  rw [h]

/-- Witness for C7: the fresh tracker and the student id from the
spec's example. -/
theorem get_student_progress_unknown_witness :
    dictGet ProgressTracker.init.student_progress "never_seen" = none ∧
    ProgressTracker.init.get_student_progress "never_seen" =
      { student_id := "never_seen"
        completed_modules := []
        module_scores := []
        overall_progress := 0
        start_date := none
        last_activity := none } :=
  ⟨rfl, get_student_progress_unknown ProgressTracker.init "never_seen" rfl⟩

/-- C4: for every known student (one with a record, as created by a
recorded completion), the reported overall progress is the number of
completed modules divided by the fixed catalog constant 9 times 100;
`get_student_progress` takes no list of available modules, so the
denominator cannot depend on one. -/
theorem get_student_progress_fixed_denominator (t : ProgressTracker)
    (sid : String) (r : StudentRecord)
    (h : dictGet t.student_progress sid = some r) :
    (t.get_student_progress sid).overall_progress =
      (r.completed_modules.length : ℚ) / 9 * 100 := by
  unfold ProgressTracker.get_student_progress
  rw [h]

/-- Witness for C4: a student with one completed module is reported at
100/9 percent, not at a fraction of any available-modules list. -/
theorem get_student_progress_fixed_denominator_witness :
    dictGet (ProgressTracker.init.record_module_completion
        "s1" "m1" 1 0).student_progress "s1" =
      some ⟨["m1"], [("m1", 1)], 0, 0⟩ ∧
    ((ProgressTracker.init.record_module_completion
        "s1" "m1" 1 0).get_student_progress "s1").overall_progress =
      100 / 9 := by
  constructor
  · rfl
  · rw [get_student_progress_fixed_denominator
      (ProgressTracker.init.record_module_completion "s1" "m1" 1 0)
      "s1" ⟨["m1"], [("m1", 1)], 0, 0⟩ rfl]
    norm_num

/-- After recording a completion, the stored completed list is the old
one, extended with the module id exactly when it was absent. -/
theorem completedOf_record (t : ProgressTracker) (sid mid : String)
    (score : ℚ) (now : Nat) :
    completedOf (t.record_module_completion sid mid score now) sid =
      if mid ∈ completedOf t sid then completedOf t sid
      else completedOf t sid ++ [mid] := by
  unfold completedOf ProgressTracker.record_module_completion
  cases hdg : dictGet t.student_progress sid with
  | none => simp [hdg, dictGet_dictSet_self]
  | some r =>
      by_cases hm : mid ∈ r.completed_modules <;>
        simp [hdg, dictGet_dictSet_self, hm]

/-- After recording a completion, the stored score for that module is
the score just written. -/
theorem scoreOf_record (t : ProgressTracker) (sid mid : String)
    (score : ℚ) (now : Nat) :
    scoreOf (t.record_module_completion sid mid score now) sid mid =
      some score := by
  unfold scoreOf ProgressTracker.record_module_completion
  cases hdg : dictGet t.student_progress sid with
  | none => simp [hdg, dictGet_dictSet_self]
  | some r =>
      by_cases hm : mid ∈ r.completed_modules <;>
        simp [hdg, dictGet_dictSet_self, hm]

/-- C5: recording the same module twice (scores `x` then `y`) leaves
the module in the completed set exactly once — counted, not merely
present — and the stored score is the last one written. The hypothesis
says the starting tracker does not already hold a duplicated entry for
the module, which holds for every tracker built by the API. -/
theorem record_completion_idempotent_last_write (t : ProgressTracker)
    (sid mid : String) (x y : ℚ) (n1 n2 : Nat)
    (h : (completedOf t sid).count mid ≤ 1) :
    (completedOf ((t.record_module_completion sid mid x n1).record_module_completion
        sid mid y n2) sid).count mid = 1 ∧
    scoreOf ((t.record_module_completion sid mid x n1).record_module_completion
        sid mid y n2) sid mid = some y := by
  refine ⟨?_, scoreOf_record _ _ _ _ _⟩
  rw [completedOf_record, completedOf_record]
  by_cases hm : mid ∈ completedOf t sid
  · have h1 : (completedOf t sid).count mid = 1 := by
      have hpos : 0 < (completedOf t sid).count mid :=
        List.count_pos_iff.mpr hm
      omega
    simp [hm, h1]
  · have h0 : (completedOf t sid).count mid = 0 :=
      List.count_eq_zero.mpr hm
    have hmem : mid ∈ completedOf t sid ++ [mid] := by simp
    simp [hm, hmem, List.count_append, h0]

/-- Witness for C5: the spec's example, a score of 0.8 recorded twice
for the same student and module. -/
theorem record_completion_idempotent_last_write_witness :
    (completedOf ProgressTracker.init "s1").count "m1" ≤ 1 ∧
    ((completedOf ((ProgressTracker.init.record_module_completion
        "s1" "m1" (4 / 5) 0).record_module_completion
        "s1" "m1" (4 / 5) 1) "s1").count "m1" = 1 ∧
      scoreOf ((ProgressTracker.init.record_module_completion
        "s1" "m1" (4 / 5) 0).record_module_completion
        "s1" "m1" (4 / 5) 1) "s1" "m1" = some (4 / 5)) :=
  ⟨by decide,
    record_completion_idempotent_last_write ProgressTracker.init
      "s1" "m1" (4 / 5) (4 / 5) 0 1 (by decide)⟩

/-- The snapshot's completed list is the stored completed list. -/
theorem get_student_progress_completed (t : ProgressTracker)
    (sid : String) :
    (t.get_student_progress sid).completed_modules = completedOf t sid := by
  unfold ProgressTracker.get_student_progress completedOf
  cases dictGet t.student_progress sid <;> rfl

/-- C6: `recommend_next_steps` returns the first at-most-3 elements of
the lexicographically sorted list of available module ids not yet
completed by the student (stated as: some sorted permutation of that
remainder exists whose 3-prefix is the result — with ≤ total and
antisymmetric, the sorted permutation is unique); being a pure
function of tracker, student and list, identical inputs give the
identical ordered result. The spec's two concrete calls are included. -/
theorem recommend_next_steps_sorted_top3 :
    (∀ (t : ProgressTracker) (sid : String) (avail : List String),
      ∃ sorted : List String,
        List.Perm
          (avail.filter (fun m => !((completedOf t sid).contains m)))
          sorted ∧
        sorted.Sorted (· ≤ ·) ∧
        t.recommend_next_steps sid avail = sorted.take 3) ∧
    ProgressTracker.init.recommend_next_steps "new_student"
      ["m1", "m2", "m3"] = ["m1", "m2", "m3"] ∧
    (ProgressTracker.init.record_module_completion
        "new_student" "m2" 1 0).recommend_next_steps "new_student"
      ["m1", "m2", "m3"] = ["m1", "m3"] := by
  refine ⟨?_, by decide, by decide⟩
  intro t sid avail
  refine ⟨(avail.filter
      (fun m => !((completedOf t sid).contains m))).insertionSort strLe,
    (List.perm_insertionSort _ _).symm, ?_, ?_⟩
  · exact (List.sorted_insertionSort strLe _).imp
      (fun hab => (strLe_iff _ _).mp hab)
  · simp only [ProgressTracker.recommend_next_steps,
      get_student_progress_completed]

/-! ### Theorems about the learning-module bookkeeping -/

/-- C9: the reported progress percentage is the number of the module's
own exercises found in the completed list, divided by the module's
total exercise count, times 100 — and exactly 0 when the module has no
exercises, the zero-total branch being guarded so the division is never
taken. -/
theorem get_progress_summary_percentage (m : LearningModule)
    (completed : List String) :
    (m.get_progress_summary completed).progress_percentage =
      if m.exercises.length = 0 then 0
      else ((m.exercises.countP
          (fun ex => completed.contains ex.exercise_id) : ℚ) /
        (m.exercises.length : ℚ)) * 100 := by
  unfold LearningModule.get_progress_summary
  rcases Nat.eq_zero_or_pos m.exercises.length with h | h
  · simp [h]
  · simp [h, Nat.pos_iff_ne_zero.mp h, List.countP_eq_length_filter]

/-! ### The progress-tracker invariant -/

/-- Well-formedness of a stored student record: no duplicated completed
module, no duplicated score key, and the completed modules are exactly
the scored ones. -/
def RecordWf (r : StudentRecord) : Prop :=
  r.completed_modules.Nodup ∧
  (r.module_scores.map Prod.fst).Nodup ∧
  ∀ m, m ∈ r.completed_modules ↔ m ∈ r.module_scores.map Prod.fst

/-- Every stored student record is well-formed. -/
def TrackerWf (t : ProgressTracker) : Prop :=
  ∀ (sid : String) (r : StudentRecord),
    dictGet t.student_progress sid = some r → RecordWf r

theorem recordWf_step (rec0 r2 : StudentRecord) (mid : String)
    (score : ℚ)
    (hwf : RecordWf rec0)
    (hc : r2.completed_modules =
      if mid ∈ rec0.completed_modules then rec0.completed_modules
      else rec0.completed_modules ++ [mid])
    (hs : r2.module_scores = dictSet rec0.module_scores mid score) :
    RecordWf r2 := by
  obtain ⟨hnd, hknd, hiff⟩ := hwf
  have hkeys := dictSet_map_fst rec0.module_scores mid score
  by_cases hm : mid ∈ rec0.completed_modules
  · have hmk : mid ∈ rec0.module_scores.map Prod.fst := (hiff mid).mp hm
    refine ⟨?_, ?_, ?_⟩
    · rw [hc, if_pos hm]; exact hnd
    · rw [hs, hkeys, if_pos hmk]; exact hknd
    · intro m
      rw [hc, if_pos hm, hs, hkeys, if_pos hmk]
      exact hiff m
  · have hmk : mid ∉ rec0.module_scores.map Prod.fst :=
      fun hx => hm ((hiff mid).mpr hx)
    refine ⟨?_, ?_, ?_⟩
    · rw [hc, if_neg hm]
      simp [List.nodup_append, hnd, hm]
    · rw [hs, hkeys, if_neg hmk]
      simp [List.nodup_append, hknd, hmk]
    · intro m
      rw [hc, if_neg hm, hs, hkeys, if_neg hmk]
      simp [List.mem_append, hiff m]

theorem trackerWf_record (t : ProgressTracker) (sid mid : String)
    (score : ℚ) (now : Nat) (h : TrackerWf t) :
    TrackerWf (t.record_module_completion sid mid score now) := by
  intro sid2 r2 h2
  by_cases hs2 : sid2 = sid
  · subst hs2
    cases hdg : dictGet t.student_progress sid2 with
    | none =>
        unfold ProgressTracker.record_module_completion at h2
        rw [hdg, dictGet_dictSet_self] at h2
        obtain rfl := Option.some.inj h2
        refine ⟨?_, ?_, ?_⟩ <;> simp [dictSet]
    | some r0 =>
        have hwf0 : RecordWf r0 := h sid2 r0 hdg
        unfold ProgressTracker.record_module_completion at h2
        rw [hdg, dictGet_dictSet_self] at h2
        obtain rfl := Option.some.inj h2
        refine recordWf_step r0 _ mid score hwf0 ?_ ?_
        · by_cases hm : mid ∈ r0.completed_modules <;> simp [hm]
        · by_cases hm : mid ∈ r0.completed_modules <;> simp [hm]
  · unfold ProgressTracker.record_module_completion at h2
    rw [dictGet_dictSet_other _ _ _ _ hs2] at h2
    exact h sid2 r2 h2

/-- A sequence of completion recordings applied in order to a tracker;
each operation is (student id, module id, score, timestamp). -/
def applyCompletions (ops : List (String × String × ℚ × Nat))
    (t : ProgressTracker) : ProgressTracker :=
  ops.foldl (fun acc op =>
    acc.record_module_completion op.1 op.2.1 op.2.2.1 op.2.2.2) t

theorem trackerWf_applyCompletions
    (ops : List (String × String × ℚ × Nat)) :
    ∀ t : ProgressTracker, TrackerWf t →
      TrackerWf (applyCompletions ops t) := by
  induction ops with
  | nil => intro t ht; exact ht
  | cons op rest ih =>
      intro t ht
      have e : applyCompletions (op :: rest) t =
          applyCompletions rest
            (t.record_module_completion op.1 op.2.1 op.2.2.1 op.2.2.2) :=
        rfl
      rw [e]
      exact ih _ (trackerWf_record _ _ _ _ _ ht)

/-- C10: after any sequence of `record_module_completion` calls from a
fresh tracker, every stored student record has a duplicate-free
completed-modules list whose set of elements equals the key set of the
student's score map (which is itself duplicate-free). -/
theorem progress_tracker_invariant
    (ops : List (String × String × ℚ × Nat)) (sid : String)
    (r : StudentRecord)
    (h : dictGet (applyCompletions ops
        ProgressTracker.init).student_progress sid = some r) :
    r.completed_modules.Nodup ∧
    (r.module_scores.map Prod.fst).Nodup ∧
    r.completed_modules.toFinset =
      (r.module_scores.map Prod.fst).toFinset := by
  have hinit : TrackerWf ProgressTracker.init := by
    intro sid0 r0 h0
    simp [ProgressTracker.init, dictGet] at h0
  obtain ⟨h1, h2, h3⟩ :=
    trackerWf_applyCompletions ops ProgressTracker.init hinit sid r h
  refine ⟨h1, h2, ?_⟩
  ext m
  simp only [List.mem_toFinset]
  exact h3 m

/-- Witness for C10: one recorded completion yields a record holding
the module once, with matching score key. -/
theorem progress_tracker_invariant_witness :
    (dictGet (applyCompletions [("s1", "m1", 1, 0)]
        ProgressTracker.init).student_progress "s1" =
      some ⟨["m1"], [("m1", 1)], 0, 0⟩) ∧
    ((["m1"] : List String).Nodup ∧
      (([("m1", (1 : ℚ))].map Prod.fst).Nodup ∧
        (["m1"] : List String).toFinset =
          ([("m1", (1 : ℚ))].map Prod.fst).toFinset)) :=
  ⟨by decide,
    progress_tracker_invariant [("s1", "m1", 1, 0)] "s1"
      ⟨["m1"], [("m1", 1)], 0, 0⟩ (by decide)⟩

end LangGraphDemo
